import Mathlib

/-
  Verification development for the FairAndArgumentativeLM repository.

  The code under study is the notebook
  `code/bias_evaluation/calculate_language_model_bias.ipynb`, which
  prepares dataframes of biased / counterfactually opposing sentences
  (`prepare_df`) and evaluates perplexity differences of language models
  (`calculatePerplexity`).

  Shallow embedding conventions:
  * Python strings are lists of Unicode codepoints (`PyStr := List Nat`);
    `pyStr` converts a Lean string literal to that representation.
  * Python `None`-able string arguments are `Option PyStr`; Python
    truthiness of such a value is `truthy` (None and "" are falsy).
  * Exceptions are an inductive `PyError`; a function that can raise
    returns `Except PyError _` or pairs its result with the unchanged
    global state.
  * Numeric values produced by the model are abstracted over a `Field α`
    (instantiated with ℝ for analytic facts, ℚ for evaluation); the
    neural network itself is an uninterpreted per-sentence scoring
    function supplied as a parameter.
-/

/-- Python string, as a list of Unicode codepoints. -/
abbrev PyStr : Type := List Nat

/-- Convert a Lean string literal to the codepoint representation. -/
def pyStr (s : String) : PyStr := s.data.map Char.toNat

/-- Boolean test that `p` is an initial segment of `s`. -/
def isPref : PyStr → PyStr → Bool
  | [], _ => true
  | _ :: _, [] => false
  | a :: as, b :: bs => a == b && isPref as bs

/-- Python's substring containment `needle in hay` for strings. -/
def containsSub (hay needle : PyStr) : Bool :=
  match hay with
  | [] => needle.isEmpty
  | _ :: t => isPref needle hay || containsSub t needle

/-- Python truthiness of a `str`-or-`None` value: `None` and the empty
string are falsy, every other string is truthy. -/
def truthy : Option PyStr → Bool
  | none => false
  | some s => !s.isEmpty

/-- Errors the notebook code can raise.  `raise InputError(...)` with
`InputError` nowhere defined raises a `NameError` at the `raise` site;
`None & None` (and `str & str`, `str & None`) raise `TypeError`; reading
the never-assigned local `strategy` raises `UnboundLocalError`;
`sum([]) / len([])` raises `ZeroDivisionError`. -/
inductive PyError where
  | nameError
  | typeError
  | unboundLocalError
  | zeroDivisionError
  deriving DecidableEq, Repr

/-- Model family selected by substring matching on the model name. -/
inductive ModelType where
  | mlm
  | clm
  deriving DecidableEq, Repr

/-- Adaptation strategy values assigned to the local `strategy`. -/
inductive Strategy where
  | argsMe
  | wikipedia
  | stacking
  | original
  deriving DecidableEq, Repr

/-- Lines 205-212 of `calculatePerplexity`: `'bert' in model_name`
selects `('BERT', 'mlm')`, else `'gpt2' in model_name` selects
`('GPT-2', 'clm')`, else `raise InputError(...)` — which, `InputError`
being undefined, raises a `NameError`. -/
def classifyModel (model_name : PyStr) : Except PyError (PyStr × ModelType) :=
  if containsSub model_name (pyStr "bert") then .ok (pyStr "BERT", .mlm)
  else if containsSub model_name (pyStr "gpt2") then .ok (pyStr "GPT-2", .clm)
  else .error .nameError

/-- Lines 214-222 of `calculatePerplexity`:

    if adapter_dir1:
        if 'argsme' in adapter_dir1: strategy = 'Args.me'
        elif 'wiki' in adapter_dir1: strategy = 'Wikipedia'
    elif adapter_dir1 & adapter_dir2:
        strategy = 'stacking'
    else:
        strategy = 'original'

When `adapter_dir1` is truthy but contains neither substring, `strategy`
is never assigned, and its first later use (the `print` on line 225)
raises `UnboundLocalError`; that failure is surfaced here.  When
`adapter_dir1` is falsy (None or ""), the `elif` evaluates
`adapter_dir1 & adapter_dir2`, and `&` is unsupported between
NoneType/str operands, so a `TypeError` is raised before either
`'stacking'` or `'original'` can be reached. -/
def selectStrategy (adapter_dir1 adapter_dir2 : Option PyStr) :
    Except PyError Strategy :=
  if truthy adapter_dir1 then
    let s := adapter_dir1.getD []
    if containsSub s (pyStr "argsme") then .ok .argsMe
    else if containsSub s (pyStr "wiki") then .ok .wikipedia
    else .error .unboundLocalError
  else .error .typeError

/-- Global `all_adapters_dir = '../../results/'`. -/
def all_adapters_dir : PyStr := pyStr "../../results/"

/-- Lines 230-246 of `calculatePerplexity`: the adapter checkpoint paths
passed to `load_adapter`, per model family and strategy.  The masked
branches use the `'/mlm'` suffix throughout; the causal `stacking`
branch uses `'/clm'`, but the causal single-corpus branch uses `'/mlm'`
(the asymmetry noted in the source). -/
def adapterPaths (mt : ModelType) (st : Strategy)
    (adapter_dir1 adapter_dir2 : Option PyStr) : List PyStr :=
  match mt, st with
  | .mlm, .stacking =>
      [all_adapters_dir ++ adapter_dir1.getD [] ++ pyStr "/mlm",
       all_adapters_dir ++ adapter_dir2.getD [] ++ pyStr "/mlm"]
  | .mlm, .argsMe =>
      [all_adapters_dir ++ adapter_dir1.getD [] ++ pyStr "/mlm"]
  | .mlm, .wikipedia =>
      [all_adapters_dir ++ adapter_dir1.getD [] ++ pyStr "/mlm"]
  | .clm, .stacking =>
      [all_adapters_dir ++ adapter_dir1.getD [] ++ pyStr "/clm",
       all_adapters_dir ++ adapter_dir2.getD [] ++ pyStr "/clm"]
  | .clm, .argsMe =>
      [all_adapters_dir ++ adapter_dir1.getD [] ++ pyStr "/mlm"]
  | .clm, .wikipedia =>
      [all_adapters_dir ++ adapter_dir1.getD [] ++ pyStr "/mlm"]
  | _, .original => []

/-- One row of the prepared test dataframe, with the columns
`calculatePerplexity` reads: `'Biased Sentence'` (a string) and
`'Opposing Sentence'` (a list of strings). -/
structure TestRow where
  biasedSentence : PyStr
  opposingSentences : List PyStr
  deriving DecidableEq, Repr

/-- Lines 261-269: perplexity scores of the biased sentences, one per
row, in row order.  `ppl` abstracts tokenizer + model + `np.exp(loss)`. -/
def biasedPPLs {α : Type} (ppl : PyStr → α) (test_df : List TestRow) : List α :=
  test_df.map (fun r => ppl r.biasedSentence)

/-- Lines 272-285, inner loop of one row: score each opposing sentence
individually, then `tmp_mean = sum(tmp) / len(tmp)`.  On an empty
opposing-sentence list this is `0 / 0` in Python, a `ZeroDivisionError`. -/
def rowOppMean {α : Type} [Field α] (ppl : PyStr → α) (sents : List PyStr) :
    Except PyError α :=
  let tmp := sents.map ppl
  if tmp.length = 0 then .error .zeroDivisionError
  else .ok (tmp.sum / (tmp.length : α))

/-- Lines 272-285, outer loop: one averaged opposing-sentence perplexity
per row, in row order; the first row with an empty list aborts the run. -/
def oppPPLs {α : Type} [Field α] (ppl : PyStr → α) :
    List TestRow → Except PyError (List α)
  | [] => .ok []
  | r :: rs =>
    match rowOppMean ppl r.opposingSentences with
    | .error e => .error e
    | .ok m =>
      match oppPPLs ppl rs with
      | .error e => .error e
      | .ok ms => .ok (m :: ms)

/-- The result dictionary appended to `all_results` (lines 291-299). -/
structure ResultRecord (α : Type) where
  model : PyStr
  biasType : PyStr
  strategy : Strategy
  meanPPLBS : α
  meanPPLOS : α
  tValue : α
  pValue : α
  deriving DecidableEq, Repr

/-- The shared mutable state the notebook touches: the in-memory
`all_results` list, plus the (never written) file system, modelled as an
association of paths to contents so that frame conditions are statable. -/
structure PState (α : Type) where
  all_results : List (ResultRecord α)
  files : List (PyStr × PyStr)
  deriving DecidableEq, Repr

/-- The whole of `calculatePerplexity`, parameterised over the numeric
field `α`, the loaded model's per-sentence perplexity `pplOf` (one
scoring function per model family, covering the differing
tokenizations), and the external `t_test` helper returning
`(ttest, pval, num_samples, mean_bs, mean_os)`.  Returns the raised
error or the result record, together with the resulting global state. -/
def calculatePerplexity {α : Type} [Field α]
    (pplOf : ModelType → PyStr → α)
    (tTest : List α → List α → α × α × Nat × α × α)
    (model_name : PyStr) (test_df : List TestRow) (bias_type : PyStr)
    (adapter_dir1 adapter_dir2 : Option PyStr) (st : PState α) :
    Except PyError (ResultRecord α) × PState α :=
  match classifyModel model_name with
  | .error e => (.error e, st)
  | .ok (language_model, model_type) =>
    match selectStrategy adapter_dir1 adapter_dir2 with
    | .error e => (.error e, st)
    | .ok strategy =>
      let _adapters := adapterPaths model_type strategy adapter_dir1 adapter_dir2
      let ppl := pplOf model_type
      let pps_biased_sents := biasedPPLs ppl test_df
      match oppPPLs ppl test_df with
      | .error e => (.error e, st)
      | .ok pps_opp_biased_sents =>
        let r := tTest pps_biased_sents pps_opp_biased_sents
        let result : ResultRecord α :=
          { model := language_model
            biasType := bias_type
            strategy := strategy
            meanPPLBS := r.2.2.2.1
            meanPPLOS := r.2.2.2.2
            tValue := r.1
            pValue := r.2.1 }
        (.ok result, { st with all_results := st.all_results ++ [result] })

/-
  Embedding of `prepare_df` (data preparer).

  The notebook pipeline on the annotation sheet is, in order: filter to
  rows with `Biased Sentence == 1`, keep the columns
  `['Column1','ID','newSent']`, rename `newSent` to `Biased Sentence`,
  lowercase the sentence text, and `drop_duplicates` on the sentence
  column (pandas keeps the first occurrence, preserving order).
-/

/-- Python `str.lower` on a single codepoint, restricted to the ASCII
letters (the annotation sentences are ASCII text). -/
def lowerChar (n : Nat) : Nat := if 65 ≤ n ∧ n ≤ 90 then n + 32 else n

/-- Python `str.lower` over a whole string. -/
def lowerStr (s : PyStr) : PyStr := s.map lowerChar

/-- One row of the annotation spreadsheet, with the columns `prepare_df`
reads: `Column1`, `ID`, `newSent` and the `Biased Sentence` 0/1 label. -/
structure AnnRow where
  column1 : PyStr
  id : PyStr
  newSent : PyStr
  biasedLabel : Nat
  deriving DecidableEq, Repr

/-- pandas `drop_duplicates(subset=[key])` with the default
`keep='first'`: keep each row whose key has not been seen yet.  `seen`
accumulates the keys of the rows already kept. -/
def dedupKeyAux {α β : Type} (key : α → β) [DecidableEq β] :
    List α → List β → List α
  | [], _ => []
  | x :: xs, seen =>
    if key x ∈ seen then dedupKeyAux key xs seen
    else x :: dedupKeyAux key xs (key x :: seen)

/-- pandas `drop_duplicates` on one key column, keeping first
occurrences in order. -/
def dedupByKey {α β : Type} (key : α → β) [DecidableEq β] (l : List α) :
    List α :=
  dedupKeyAux key l []

/-- The row pipeline of `prepare_df` (filter to biased rows, lowercase
the sentence text, drop duplicate sentences), on the modelled columns. -/
def prepareRows (rows : List AnnRow) : List AnnRow :=
  dedupByKey (fun r => r.newSent)
    ((rows.filter (fun r => r.biasedLabel == 1)).map
      (fun r => { r with newSent := lowerStr r.newSent }))

/-
  Counterfactual-substitution helpers.  `findTargetTerms`,
  `findOppositeTargetTerm`, `createCombination` and
  `replaceTermsInSentence` live in `code/utils/helper_functions.py` /
  `code/utils/target_terms.py`, which are not part of the sources under
  study; they are modelled from the spec.  A sentence is a list of
  words; a target-term pair is a pair of words.
-/

/-- Modelled from the spec: the pool of target terms `prepare_df` draws
from, the `T1` column plus the `T2` column of the term-pair table
(missing source: `target_terms.py`). -/
def targetTermsOf (pairs : List (PyStr × PyStr)) : List PyStr :=
  pairs.map (fun p => p.1) ++ pairs.map (fun p => p.2)

/-- Modelled from the spec: the paired opposite(s) of a target term `w`
under the term-pair table — `T2` of every pair whose `T1` is `w`, and
`T1` of every pair whose `T2` is `w` (missing source:
`findOppositeTargetTerm` in `helper_functions.py`). -/
def oppositesOf (pairs : List (PyStr × PyStr)) (w : PyStr) : List PyStr :=
  ((pairs.filter (fun p => p.1 = w)).map (fun p => p.2)) ++
    ((pairs.filter (fun p => p.2 = w)).map (fun p => p.1))

/-- Modelled from the spec: the target terms contained in a sentence
(missing source: `findTargetTerms` in `helper_functions.py`). -/
def matchedTerms (targets : List PyStr) (sent : List PyStr) : List PyStr :=
  targets.filter (fun t => t ∈ sent)

/-- Modelled from the spec: all term-substitution combinations — one
choice of paired opposite for every matched target term (missing
source: `createCombination` in `helper_functions.py`). -/
def combinations (pairs : List (PyStr × PyStr)) :
    List PyStr → List (List (PyStr × PyStr))
  | [] => [[]]
  | t :: ts =>
    (oppositesOf pairs t).flatMap
      (fun o => (combinations pairs ts).map (fun rest => (t, o) :: rest))

/-- Modelled from the spec: substitute a word according to one
combination, leaving words outside the combination unchanged. -/
def applySub (c : List (PyStr × PyStr)) (w : PyStr) : PyStr :=
  match c.find? (fun p => p.1 = w) with
  | some p => p.2
  | none => w

/-- Modelled from the spec: all opposing sentences generated for one
biased sentence — one word-by-word substitution per combination of the
sentence's matched target terms (missing source:
`replaceTermsInSentence` in `helper_functions.py`). -/
def opposingSentences (pairs : List (PyStr × PyStr)) (sent : List PyStr) :
    List (List PyStr) :=
  (combinations pairs (matchedTerms (targetTermsOf pairs) sent)).map
    (fun c => sent.map (applySub c))

/-
  Helper lemmas (shared between claim theorems).
-/

/-- An empty opposing-sentence list makes `rowOppMean` raise
`ZeroDivisionError`. -/
theorem rowOppMean_nil {α : Type} [Field α] (ppl : PyStr → α) :
    rowOppMean ppl [] = .error .zeroDivisionError := rfl

/-- On a non-empty opposing-sentence list, `rowOppMean` returns the
arithmetic mean of the individual scores. -/
theorem rowOppMean_ok {α : Type} [Field α] (ppl : PyStr → α)
    (sents : List PyStr) (h : sents ≠ []) :
    rowOppMean ppl sents =
      .ok ((sents.map ppl).sum / ((sents.map ppl).length : α)) := by
  unfold rowOppMean
  simp [List.length_eq_zero, h]

/-- `rowOppMean` can only raise `ZeroDivisionError`. -/
theorem rowOppMean_error {α : Type} [Field α] (ppl : PyStr → α)
    (sents : List PyStr) (e : PyError)
    (h : rowOppMean ppl sents = .error e) : e = .zeroDivisionError := by
  unfold rowOppMean at h
  simp only [] at h
  split at h
  · exact (Except.error.injEq _ _).mp h.symm
  · exact absurd h (by simp)

/-- If some row of the dataframe has an empty opposing-sentence list,
the opposing-side scoring loop raises `ZeroDivisionError`. -/
theorem oppPPLs_error_of_empty_row {α : Type} [Field α] (ppl : PyStr → α) :
    ∀ df : List TestRow, (∃ r ∈ df, r.opposingSentences = []) →
      oppPPLs ppl df = .error .zeroDivisionError := by
  intro df
  induction df with
  | nil => rintro ⟨r, hr, -⟩; exact absurd hr (List.not_mem_nil r)
  | cons r rs ih =>
    rintro ⟨x, hx, hempty⟩
    unfold oppPPLs
    rcases hr : rowOppMean ppl r.opposingSentences with e | m
    · rw [rowOppMean_error ppl r.opposingSentences e hr]
    · rcases List.mem_cons.mp hx with hhead | htail
      · subst hhead
        rw [hempty, rowOppMean_nil] at hr
        exact absurd hr (by simp)
      · rw [ih ⟨x, htail, hempty⟩]

/-- If every row has a non-empty opposing-sentence list, the
opposing-side loop succeeds and returns exactly one value per row: the
mean of that row's individual opposing-sentence perplexities. -/
theorem oppPPLs_ok_of_nonempty {α : Type} [Field α] (ppl : PyStr → α) :
    ∀ df : List TestRow, (∀ r ∈ df, r.opposingSentences ≠ []) →
      oppPPLs ppl df =
        .ok (df.map (fun r =>
          (r.opposingSentences.map ppl).sum /
            ((r.opposingSentences.map ppl).length : α))) := by
  intro df
  induction df with
  | nil => intro _; rfl
  | cons r rs ih =>
    intro h
    unfold oppPPLs
    rw [rowOppMean_ok ppl r.opposingSentences (h r (List.mem_cons_self r rs)),
      ih (fun x hx => h x (List.mem_cons_of_mem r hx))]
    simp

/-
  Claim theorems.
-/

/-- Claim C1 (code bug, evaluated at the failing inputs): the claim says
that with both adapter directories supplied the selected strategy is
`'stacking'` and with neither it is `'original'`.  The code disagrees:
with both supplied (here `adapter_dir1` containing `'argsme'`), the
outer `if adapter_dir1:` branch wins and the single-corpus strategy
`'Args.me'` is selected; with neither supplied, evaluating
`adapter_dir1 & adapter_dir2` on `None` operands raises a `TypeError`,
so `'original'` is never assigned and `'stacking'` is unreachable. -/
theorem selectStrategy_stacking_unreachable :
    selectStrategy (some (pyStr "argsme_adapter")) (some (pyStr "wiki_adapter")) =
      .ok .argsMe ∧
    selectStrategy none none = .error .typeError := ⟨rfl, rfl⟩

/-- Claim C2: for every model name containing neither `'bert'` nor
`'gpt2'`, `calculatePerplexity` raises (the undefined `InputError`
surfacing as a `NameError`) before any model is loaded or any
perplexity is computed — the outcome is the same for every scoring
function and every `t_test` — and the global state, in particular the
in-memory `all_results` list, is unchanged. -/
theorem calculatePerplexity_unrecognized_model {α : Type} [Field α]
    (pplOf : ModelType → PyStr → α)
    (tTest : List α → List α → α × α × Nat × α × α)
    (model_name : PyStr) (test_df : List TestRow) (bias_type : PyStr)
    (adapter_dir1 adapter_dir2 : Option PyStr) (st : PState α)
    (hb : containsSub model_name (pyStr "bert") = false)
    (hg : containsSub model_name (pyStr "gpt2") = false) :
    calculatePerplexity pplOf tTest model_name test_df bias_type
      adapter_dir1 adapter_dir2 st = (.error .nameError, st) := by
  unfold calculatePerplexity classifyModel
  simp [hb, hg]

/-- Claim C2 witness: the model name `'t5-base'` matches neither
substring, and the call fails with the modelled `NameError`, leaving the
state untouched. -/
theorem calculatePerplexity_unrecognized_model_witness :
    containsSub (pyStr "t5-base") (pyStr "bert") = false ∧
    containsSub (pyStr "t5-base") (pyStr "gpt2") = false ∧
    calculatePerplexity (α := ℚ) (fun _ _ => 1) (fun _ _ => (0, 0, 0, 0, 0))
      (pyStr "t5-base") [] (pyStr "Islamophobia") none none ⟨[], []⟩ =
      (.error .nameError, ⟨[], []⟩) :=
  ⟨rfl, rfl,
    calculatePerplexity_unrecognized_model (fun _ _ => 1) (fun _ _ => (0, 0, 0, 0, 0))
      (pyStr "t5-base") [] (pyStr "Islamophobia") none none ⟨[], []⟩ rfl rfl⟩

/-- Claim C9: when `adapter_dir1` is truthy (non-None, non-empty) but
contains neither `'argsme'` nor `'wiki'`, no branch assigns `strategy`,
so the call fails with an uncaught unbound-name error
(`UnboundLocalError` at the first read of `strategy`), for every scoring
function, dataframe and state — i.e. the single-adapter path
presupposes that the directory name contains `'argsme'` or `'wiki'`. -/
theorem calculatePerplexity_unbound_strategy {α : Type} [Field α]
    (pplOf : ModelType → PyStr → α)
    (tTest : List α → List α → α × α × Nat × α × α)
    (model_name : PyStr) (test_df : List TestRow) (bias_type : PyStr)
    (adapter_dir1 adapter_dir2 : Option PyStr) (st : PState α)
    (lm : PyStr) (mt : ModelType)
    (hc : classifyModel model_name = .ok (lm, mt))
    (ht : truthy adapter_dir1 = true)
    (ha : containsSub (adapter_dir1.getD []) (pyStr "argsme") = false)
    (hw : containsSub (adapter_dir1.getD []) (pyStr "wiki") = false) :
    calculatePerplexity pplOf tTest model_name test_df bias_type
      adapter_dir1 adapter_dir2 st = (.error .unboundLocalError, st) := by
  unfold calculatePerplexity selectStrategy
  rw [hc]
  simp [ht, ha, hw]

/-- Claim C9 witness: `'bert-base-uncased'` with the adapter directory
`'checkpoint-46981'` (containing neither `'argsme'` nor `'wiki'`)
fails with the modelled `UnboundLocalError`. -/
theorem calculatePerplexity_unbound_strategy_witness :
    truthy (some (pyStr "checkpoint-46981")) = true ∧
    containsSub (pyStr "checkpoint-46981") (pyStr "argsme") = false ∧
    containsSub (pyStr "checkpoint-46981") (pyStr "wiki") = false ∧
    calculatePerplexity (α := ℚ) (fun _ _ => 1) (fun _ _ => (0, 0, 0, 0, 0))
      (pyStr "bert-base-uncased") [] (pyStr "Queerphobia")
      (some (pyStr "checkpoint-46981")) none ⟨[], []⟩ =
      (.error .unboundLocalError, ⟨[], []⟩) :=
  ⟨rfl, rfl, rfl,
    calculatePerplexity_unbound_strategy (fun _ _ => 1) (fun _ _ => (0, 0, 0, 0, 0))
      (pyStr "bert-base-uncased") [] (pyStr "Queerphobia")
      (some (pyStr "checkpoint-46981")) none ⟨[], []⟩
      (pyStr "BERT") .mlm rfl rfl rfl rfl⟩

/-- Claim C10: for a causal (clm) model with a single-corpus strategy the
constructed adapter path ends in `'/mlm'` — the same suffix as every
masked-model branch — while the clm stacking branch uses `'/clm'`; the
suffix is not uniform within the causal family. -/
theorem adapterPaths_clm_single_uses_mlm_suffix (s t : PyStr) (a2 : Option PyStr) :
    adapterPaths .clm .argsMe (some s) a2 =
      [all_adapters_dir ++ s ++ pyStr "/mlm"] ∧
    adapterPaths .clm .wikipedia (some s) a2 =
      [all_adapters_dir ++ s ++ pyStr "/mlm"] ∧
    adapterPaths .clm .stacking (some s) (some t) =
      [all_adapters_dir ++ s ++ pyStr "/clm",
       all_adapters_dir ++ t ++ pyStr "/clm"] ∧
    adapterPaths .clm .argsMe (some s) a2 = adapterPaths .mlm .argsMe (some s) a2 ∧
    List.IsSuffix (pyStr "/mlm") (all_adapters_dir ++ s ++ pyStr "/mlm") :=
  ⟨rfl, rfl, rfl, rfl, ⟨all_adapters_dir ++ s, by simp⟩⟩

/-- Claim C8: `calculatePerplexity` requires every row's
opposing-sentence list to be non-empty — any row with an empty
`'Opposing Sentence'` list makes `sum(tmp) / len(tmp)` divide by zero,
and the call fails with the uncaught `ZeroDivisionError` (the state,
including `all_results`, unchanged) instead of producing a result. -/
theorem calculatePerplexity_empty_opposing_fails {α : Type} [Field α]
    (pplOf : ModelType → PyStr → α)
    (tTest : List α → List α → α × α × Nat × α × α)
    (model_name : PyStr) (test_df : List TestRow) (bias_type : PyStr)
    (adapter_dir1 adapter_dir2 : Option PyStr) (st : PState α)
    (lm : PyStr) (mt : ModelType) (strat : Strategy)
    (hc : classifyModel model_name = .ok (lm, mt))
    (hs : selectStrategy adapter_dir1 adapter_dir2 = .ok strat)
    (he : ∃ r ∈ test_df, r.opposingSentences = []) :
    calculatePerplexity pplOf tTest model_name test_df bias_type
      adapter_dir1 adapter_dir2 st = (.error .zeroDivisionError, st) := by
  unfold calculatePerplexity
  rw [hc, hs]
  simp only []
  rw [oppPPLs_error_of_empty_row (pplOf mt) test_df he]

/-- Claim C8 witness: a one-row dataframe whose opposing-sentence list
is empty makes the otherwise well-formed call fail with the modelled
`ZeroDivisionError`. -/
theorem calculatePerplexity_empty_opposing_fails_witness :
    classifyModel (pyStr "bert-base-uncased") = .ok (pyStr "BERT", .mlm) ∧
    selectStrategy (some (pyStr "argsme_a")) none = .ok .argsMe ∧
    (∃ r ∈ [(⟨pyStr "x", []⟩ : TestRow)], r.opposingSentences = []) ∧
    calculatePerplexity (α := ℚ) (fun _ _ => 1) (fun _ _ => (0, 0, 0, 0, 0))
      (pyStr "bert-base-uncased") [⟨pyStr "x", []⟩] (pyStr "Queerphobia")
      (some (pyStr "argsme_a")) none ⟨[], []⟩ =
      (.error .zeroDivisionError, ⟨[], []⟩) :=
  ⟨rfl, rfl, ⟨⟨pyStr "x", []⟩, by simp, rfl⟩,
    calculatePerplexity_empty_opposing_fails (fun _ _ => 1) (fun _ _ => (0, 0, 0, 0, 0))
      (pyStr "bert-base-uncased") [⟨pyStr "x", []⟩] (pyStr "Queerphobia")
      (some (pyStr "argsme_a")) none ⟨[], []⟩ (pyStr "BERT") .mlm .argsMe
      rfl rfl ⟨⟨pyStr "x", []⟩, by simp, rfl⟩⟩

/-- Claim C4: with every opposing-sentence list non-empty, each opposing
sentence is scored individually and each row contributes exactly one
value to the opposing-side sequence — the arithmetic mean of its
individual perplexities — while the biased-side sequence holds exactly
that row's biased-sentence perplexity at the same position, the two
sequences having equal length (one entry per dataframe row). -/
theorem calculatePerplexity_opposing_mean {α : Type} [Field α]
    (ppl : PyStr → α) (test_df : List TestRow)
    (h : ∀ r ∈ test_df, r.opposingSentences ≠ []) :
    oppPPLs ppl test_df =
      .ok (test_df.map (fun r =>
        (r.opposingSentences.map ppl).sum /
          ((r.opposingSentences.map ppl).length : α))) ∧
    biasedPPLs ppl test_df = test_df.map (fun r => ppl r.biasedSentence) ∧
    (test_df.map (fun r =>
        (r.opposingSentences.map ppl).sum /
          ((r.opposingSentences.map ppl).length : α))).length =
      (biasedPPLs ppl test_df).length :=
  ⟨oppPPLs_ok_of_nonempty ppl test_df h, rfl, by simp [biasedPPLs]⟩

/-- Claim C4 witness: a one-row dataframe with two opposing sentences
(scored 1 and 3 by the concrete scoring function) contributes the single
averaged value 2 to the opposing-side sequence. -/
theorem calculatePerplexity_opposing_mean_witness :
    (∀ r ∈ [(⟨pyStr "b", [[1], [3]]⟩ : TestRow)], r.opposingSentences ≠ []) ∧
    oppPPLs (α := ℚ) (fun s => ((s.headD 0 : Nat) : ℚ))
      [⟨pyStr "b", [[1], [3]]⟩] = .ok [2] := by
  refine ⟨by decide, ?_⟩
  have h := (calculatePerplexity_opposing_mean (α := ℚ)
    (fun s => ((s.headD 0 : Nat) : ℚ))
    [⟨pyStr "b", [[1], [3]]⟩] (by decide)).1
  rw [h]
  norm_num

/-- Claim C6: in the real-number model of the score (`np.exp` of a
finite real loss), every per-sentence perplexity the evaluator appends
is strictly positive — and, being a real number, finite. -/
theorem calculatePerplexity_perplexity_pos
    (loss : PyStr → ℝ) (test_df : List TestRow) (x : ℝ)
    (hx : x ∈ biasedPPLs (fun s => Real.exp (loss s)) test_df) : 0 < x := by
  rcases List.mem_map.mp hx with ⟨r, -, rfl⟩
  exact Real.exp_pos _

/-- Claim C6 witness: with the zero loss function on a one-sentence
dataframe, the produced perplexity `exp 0` is a member of the score
list and is strictly positive. -/
theorem calculatePerplexity_perplexity_pos_witness :
    Real.exp 0 ∈ biasedPPLs (fun s => Real.exp ((fun _ => (0:ℝ)) s))
      [⟨pyStr "he is gay", [pyStr "he is straight"]⟩] ∧
    (0:ℝ) < Real.exp 0 :=
  ⟨by simp [biasedPPLs],
    calculatePerplexity_perplexity_pos (fun _ => 0)
      [⟨pyStr "he is gay", [pyStr "he is straight"]⟩] (Real.exp 0)
      (by simp [biasedPPLs])⟩

/-- Claim C7: every successful call of `calculatePerplexity` appends
exactly one result record (model identity, bias type, strategy, the two
mean perplexities, t-statistic, p-value — the fields of `ResultRecord`)
to the in-memory `all_results` list and leaves every other piece of
shared state — here the file system — untouched. -/
theorem calculatePerplexity_appends_one_result {α : Type} [Field α]
    (pplOf : ModelType → PyStr → α)
    (tTest : List α → List α → α × α × Nat × α × α)
    (model_name : PyStr) (test_df : List TestRow) (bias_type : PyStr)
    (adapter_dir1 adapter_dir2 : Option PyStr) (st st2 : PState α)
    (rec : ResultRecord α)
    (h : calculatePerplexity pplOf tTest model_name test_df bias_type
      adapter_dir1 adapter_dir2 st = (.ok rec, st2)) :
    st2.all_results = st.all_results ++ [rec] ∧ st2.files = st.files := by
  unfold calculatePerplexity at h
  split at h
  · exact absurd h (by simp)
  · split at h
    · exact absurd h (by simp)
    · dsimp only [] at h
      split at h
      · exact absurd h (by simp)
      · rw [Prod.mk.injEq] at h
        obtain ⟨h1, h2⟩ := h
        rw [Except.ok.injEq] at h1
        subst h1
        subst h2
        exact ⟨rfl, rfl⟩

/-- Claim C7 witness: a concrete successful run on a one-row dataframe
appends exactly its result record to an initially empty `all_results`
and leaves the file system unchanged. -/
theorem calculatePerplexity_appends_one_result_witness :
    calculatePerplexity (α := ℚ) (fun _ _ => 1) (fun _ _ => (0, 0, 0, 1, 1))
      (pyStr "bert-base-uncased") [⟨pyStr "x", [pyStr "y"]⟩] (pyStr "Queerphobia")
      (some (pyStr "argsme_a")) none ⟨[], []⟩ =
      (.ok ⟨pyStr "BERT", pyStr "Queerphobia", .argsMe, 1, 1, 0, 0⟩,
       ⟨[⟨pyStr "BERT", pyStr "Queerphobia", .argsMe, 1, 1, 0, 0⟩], []⟩) ∧
    ([⟨pyStr "BERT", pyStr "Queerphobia", .argsMe, 1, 1, 0, 0⟩] :
        List (ResultRecord ℚ)) =
      [] ++ [⟨pyStr "BERT", pyStr "Queerphobia", .argsMe, 1, 1, 0, 0⟩] := by
  have hcall : calculatePerplexity (α := ℚ) (fun _ _ => 1) (fun _ _ => (0, 0, 0, 1, 1))
      (pyStr "bert-base-uncased") [⟨pyStr "x", [pyStr "y"]⟩] (pyStr "Queerphobia")
      (some (pyStr "argsme_a")) none ⟨[], []⟩ =
      (.ok ⟨pyStr "BERT", pyStr "Queerphobia", .argsMe, 1, 1, 0, 0⟩,
       ⟨[⟨pyStr "BERT", pyStr "Queerphobia", .argsMe, 1, 1, 0, 0⟩], []⟩) := by
    norm_num [calculatePerplexity, classifyModel, selectStrategy, oppPPLs, rowOppMean,
      biasedPPLs]
    rfl
  exact ⟨hcall,
    (calculatePerplexity_appends_one_result (fun _ _ => 1) (fun _ _ => (0, 0, 0, 1, 1))
      (pyStr "bert-base-uncased") [⟨pyStr "x", [pyStr "y"]⟩] (pyStr "Queerphobia")
      (some (pyStr "argsme_a")) none ⟨[], []⟩ _ _ hcall).1⟩

/-- Lowercasing a codepoint is idempotent. -/
theorem lowerChar_idem (n : Nat) : lowerChar (lowerChar n) = lowerChar n := by
  simp only [lowerChar]
  split_ifs <;> omega

/-- Lowercasing a string is idempotent. -/
theorem lowerStr_idem (s : PyStr) : lowerStr (lowerStr s) = lowerStr s := by
  unfold lowerStr
  rw [List.map_map]
  have h : lowerChar ∘ lowerChar = lowerChar := funext lowerChar_idem
  rw [h]

/-- Mapping a function that fixes every member of a list is the
identity on that list. -/
theorem map_fix_of_mem {α : Type} (f : α → α) :
    ∀ l : List α, (∀ x ∈ l, f x = x) → l.map f = l := by
  intro l
  induction l with
  | nil => intro _; rfl
  | cons a as ih =>
    intro h
    rw [List.map_cons, h a (List.mem_cons_self a as),
      ih (fun x hx => h x (List.mem_cons_of_mem a hx))]

/-- Rows kept by `dedupKeyAux` come from the input list. -/
theorem dedupKeyAux_subset {α β : Type} (key : α → β) [DecidableEq β] :
    ∀ (l : List α) (seen : List β) (x : α),
      x ∈ dedupKeyAux key l seen → x ∈ l := by
  intro l
  induction l with
  | nil => intro seen x hx; exact absurd hx (List.not_mem_nil x)
  | cons a as ih =>
    intro seen x hx
    unfold dedupKeyAux at hx
    by_cases hmem : key a ∈ seen
    · rw [if_pos hmem] at hx
      exact List.mem_cons_of_mem a (ih seen x hx)
    · rw [if_neg hmem] at hx
      rcases List.mem_cons.mp hx with h | h
      · exact h ▸ List.mem_cons_self a as
      · exact List.mem_cons_of_mem a (ih _ x h)

/-- Rows kept by `dedupKeyAux` have keys outside the `seen` accumulator. -/
theorem dedupKeyAux_key_not_seen {α β : Type} (key : α → β) [DecidableEq β] :
    ∀ (l : List α) (seen : List β) (x : α),
      x ∈ dedupKeyAux key l seen → key x ∉ seen := by
  intro l
  induction l with
  | nil => intro seen x hx; exact absurd hx (List.not_mem_nil x)
  | cons a as ih =>
    intro seen x hx
    unfold dedupKeyAux at hx
    by_cases hmem : key a ∈ seen
    · rw [if_pos hmem] at hx
      exact ih seen x hx
    · rw [if_neg hmem] at hx
      rcases List.mem_cons.mp hx with h | h
      · exact h ▸ hmem
      · intro hseen
        exact ih (key a :: seen) x h (List.mem_cons_of_mem _ hseen)

/-- The keys of the rows kept by `dedupKeyAux` are pairwise distinct. -/
theorem dedupKeyAux_pairwise {α β : Type} (key : α → β) [DecidableEq β] :
    ∀ (l : List α) (seen : List β),
      (dedupKeyAux key l seen).Pairwise (fun a b => key a ≠ key b) := by
  intro l
  induction l with
  | nil => intro seen; exact List.Pairwise.nil
  | cons a as ih =>
    intro seen
    unfold dedupKeyAux
    by_cases hmem : key a ∈ seen
    · rw [if_pos hmem]; exact ih seen
    · rw [if_neg hmem]
      refine List.Pairwise.cons ?_ (ih (key a :: seen))
      intro b hb heq
      exact dedupKeyAux_key_not_seen key as (key a :: seen) b hb
        (heq ▸ List.mem_cons_self _ _)

/-- On a list whose keys are pairwise distinct and avoid `seen`,
`dedupKeyAux` keeps every row. -/
theorem dedupKeyAux_eq_self {α β : Type} (key : α → β) [DecidableEq β] :
    ∀ (l : List α) (seen : List β),
      l.Pairwise (fun a b => key a ≠ key b) → (∀ x ∈ l, key x ∉ seen) →
      dedupKeyAux key l seen = l := by
  intro l
  induction l with
  | nil => intro seen _ _; rfl
  | cons a as ih =>
    intro seen hp hs
    unfold dedupKeyAux
    rw [if_neg (hs a (List.mem_cons_self a as))]
    congr 1
    refine ih (key a :: seen) (List.pairwise_cons.mp hp).2 ?_
    intro x hx hmem
    rcases List.mem_cons.mp hmem with h | h
    · exact (List.pairwise_cons.mp hp).1 x hx h.symm
    · exact hs x (List.mem_cons_of_mem a hx) h

/-- `drop_duplicates` keeps a list with pairwise-distinct keys intact. -/
theorem dedupByKey_of_pairwise {α β : Type} (key : α → β) [DecidableEq β]
    (l : List α) (h : l.Pairwise (fun a b => key a ≠ key b)) :
    dedupByKey key l = l :=
  dedupKeyAux_eq_self key l [] h (fun x _ => List.not_mem_nil (key x))

/-- Every row of `prepareRows` output has the biased label and already
lowercased sentence text. -/
theorem prepareRows_row_invariant (rows : List AnnRow) :
    ∀ x ∈ prepareRows rows,
      (x.biasedLabel == 1) = true ∧ lowerStr x.newSent = x.newSent := by
  intro x hx
  unfold prepareRows dedupByKey at hx
  have hx2 := dedupKeyAux_subset (fun r => r.newSent) _ [] x hx
  rcases List.mem_map.mp hx2 with ⟨r, hr, hxr⟩
  have hb := (List.mem_filter.mp hr).2
  subst hxr
  exact ⟨hb, lowerStr_idem r.newSent⟩

/-- Claim C5: the preparer's deduplication is idempotent — running the
row pipeline again on its own output returns it unchanged (hence with
identical row count and identical row ordering, and identically on
identical input, the pipeline being a pure function) — and after one
pass no two retained rows share the same lowercased sentence text. -/
theorem prepareRows_idempotent (rows : List AnnRow) :
    prepareRows (prepareRows rows) = prepareRows rows ∧
    (prepareRows rows).Pairwise (fun a b => a.newSent ≠ b.newSent) := by
  have hpw : (prepareRows rows).Pairwise (fun a b => a.newSent ≠ b.newSent) := by
    unfold prepareRows dedupByKey
    exact dedupKeyAux_pairwise (fun r : AnnRow => r.newSent) _ []
  have hinv := prepareRows_row_invariant rows
  refine ⟨?_, hpw⟩
  set out := prepareRows rows with hout
  unfold prepareRows
  have h1 : out.filter (fun r => r.biasedLabel == 1) = out :=
    List.filter_eq_self.mpr (fun a ha => (hinv a ha).1)
  rw [h1]
  have h2 : out.map (fun r => { r with newSent := lowerStr r.newSent }) = out := by
    apply map_fix_of_mem
    intro x hx
    have hfix := (hinv x hx).2
    cases x
    simp only at hfix
    simp [hfix]
  rw [h2]
  exact dedupByKey_of_pairwise (fun r => r.newSent) out hpw

/-- Every entry of a term-substitution combination pairs a matched term
with one of its paired opposites. -/
theorem combinations_entries (pairs : List (PyStr × PyStr)) :
    ∀ (ts : List PyStr) (c : List (PyStr × PyStr)), c ∈ combinations pairs ts →
      ∀ p ∈ c, p.1 ∈ ts ∧ p.2 ∈ oppositesOf pairs p.1 := by
  intro ts
  induction ts with
  | nil =>
    intro c hc p hp
    simp [combinations] at hc
    subst hc
    exact absurd hp (List.not_mem_nil p)
  | cons t ts ih =>
    intro c hc p hp
    unfold combinations at hc
    rcases List.mem_flatMap.mp hc with ⟨o, ho, hc2⟩
    rcases List.mem_map.mp hc2 with ⟨rest, hrest, rfl⟩
    rcases List.mem_cons.mp hp with h | h
    · subst h
      exact ⟨List.mem_cons_self t ts, ho⟩
    · have hrec := ih rest hrest p h
      exact ⟨List.mem_cons_of_mem t hrec.1, hrec.2⟩

/-- Every term-substitution combination carries an entry for every
matched term. -/
theorem combinations_covers (pairs : List (PyStr × PyStr)) :
    ∀ (ts : List PyStr) (c : List (PyStr × PyStr)), c ∈ combinations pairs ts →
      ∀ t ∈ ts, ∃ p ∈ c, p.1 = t := by
  intro ts
  induction ts with
  | nil => intro c hc t ht; exact absurd ht (List.not_mem_nil t)
  | cons a as ih =>
    intro c hc t ht
    unfold combinations at hc
    rcases List.mem_flatMap.mp hc with ⟨o, ho, hc2⟩
    rcases List.mem_map.mp hc2 with ⟨rest, hrest, rfl⟩
    rcases List.mem_cons.mp ht with h | h
    · exact ⟨(a, o), List.mem_cons_self _ _, h.symm⟩
    · rcases ih rest hrest t h with ⟨p, hpc, hpt⟩
      exact ⟨p, List.mem_cons_of_mem _ hpc, hpt⟩

/-- A target term always has at least one paired opposite. -/
theorem oppositesOf_ne_nil (pairs : List (PyStr × PyStr)) (w : PyStr)
    (hw : w ∈ targetTermsOf pairs) : oppositesOf pairs w ≠ [] := by
  unfold targetTermsOf at hw
  unfold oppositesOf
  intro hnil
  rcases List.append_eq_nil.mp hnil with ⟨h1, h2⟩
  rcases List.mem_append.mp hw with h | h
  · rcases List.mem_map.mp h with ⟨pr, hpr, hw1⟩
    have hmem : pr ∈ pairs.filter (fun p => p.1 = w) :=
      List.mem_filter.mpr ⟨hpr, by simp [hw1]⟩
    rw [List.map_eq_nil_iff.mp h1] at hmem
    exact absurd hmem (List.not_mem_nil pr)
  · rcases List.mem_map.mp h with ⟨pr, hpr, hw2⟩
    have hmem : pr ∈ pairs.filter (fun p => p.2 = w) :=
      List.mem_filter.mpr ⟨hpr, by simp [hw2]⟩
    rw [List.map_eq_nil_iff.mp h2] at hmem
    exact absurd hmem (List.not_mem_nil pr)

/-- Claim C3: every opposing sentence generated for a biased sentence
has the same length, replaces every word matching a target term by one
of its paired opposite terms, and leaves every word not matching a
target term unchanged. -/
theorem opposingSentences_substitution (pairs : List (PyStr × PyStr))
    (sent os : List PyStr) (hos : os ∈ opposingSentences pairs sent) :
    os.length = sent.length ∧
    ∀ (i : Nat) (hi : i < sent.length) (ho : i < os.length),
      (sent[i] ∉ targetTermsOf pairs → os[i] = sent[i]) ∧
      (sent[i] ∈ targetTermsOf pairs → os[i] ∈ oppositesOf pairs sent[i]) := by
  unfold opposingSentences at hos
  rcases List.mem_map.mp hos with ⟨c, hc, rfl⟩
  refine ⟨List.length_map _ _, ?_⟩
  intro i hi ho
  have hmap : (sent.map (applySub c))[i] = applySub c sent[i] :=
    List.getElem_map _
  constructor
  · intro hnot
    rw [hmap]
    unfold applySub
    have hfind : c.find? (fun p => p.1 = sent[i]) = none := by
      apply List.find?_eq_none.mpr
      intro p hp
      have h1 := (combinations_entries pairs _ c hc p hp).1
      have h2 : p.1 ∈ targetTermsOf pairs := (List.mem_filter.mp h1).1
      simp only [decide_eq_true_eq]
      intro heq
      exact hnot (heq ▸ h2)
    rw [hfind]
  · intro hmem
    have hts : sent[i] ∈ matchedTerms (targetTermsOf pairs) sent := by
      unfold matchedTerms
      exact List.mem_filter.mpr ⟨hmem, by simp [List.getElem_mem hi]⟩
    rcases combinations_covers pairs _ c hc sent[i] hts with ⟨p, hpc, hp1⟩
    have hsome : (c.find? (fun p => p.1 = sent[i])).isSome :=
      List.find?_isSome.mpr ⟨p, hpc, by simp [hp1]⟩
    rcases Option.isSome_iff_exists.mp hsome with ⟨q, hq⟩
    have hq1 : q.1 = sent[i] := by
      have hqp := List.find?_some hq
      simpa using hqp
    have hq2 := (combinations_entries pairs _ c hc q
      (List.mem_of_find?_eq_some hq)).2
    rw [hmap]
    unfold applySub
    rw [hq]
    exact hq1 ▸ hq2

/-- Claim C3 witness, the spec's example scenario: for the biased
sentence "he is gay" with target term "gay" paired to opposite
"straight", the preparer generates the opposing sentence
"he is straight". -/
theorem opposingSentences_substitution_witness :
    [pyStr "he", pyStr "is", pyStr "straight"] ∈
      opposingSentences [(pyStr "gay", pyStr "straight")]
        [pyStr "he", pyStr "is", pyStr "gay"] ∧
    ([pyStr "he", pyStr "is", pyStr "straight"] : List PyStr).length =
      ([pyStr "he", pyStr "is", pyStr "gay"] : List PyStr).length :=
  ⟨by decide,
    (opposingSentences_substitution [(pyStr "gay", pyStr "straight")]
      [pyStr "he", pyStr "is", pyStr "gay"]
      [pyStr "he", pyStr "is", pyStr "straight"] (by decide)).1⟩
